import Mathlib

/-!
Verification of the pion `HTTPServer` request-dispatch engine
(`src/src/http_server.cpp`) against its specification.

Strings are modelled as `List Char` (byte-wise, as `std::string` with
ASCII contents).  The sorted associative containers (`std::map`) that back
the resource registry and the redirect table are modelled as association
lists sorted strictly ascending by the byte-wise lexicographic order
`lexLt`; `std::map::insert` keeps the existing entry when the key is
already present, `std::map::erase(key)` removes every entry with that key,
and `std::map::find` is exact-key lookup.
-/

namespace Pion

/-- Byte-wise strict lexicographic order on strings, as `std::string::operator<`
(`std::map`'s default key comparison). -/
def lexLt : List Char → List Char → Bool
  | [], [] => false
  | [], _ :: _ => true
  | _ :: _, [] => false
  | a :: as, b :: bs => if a < b then true else if a = b then lexLt as bs else false

/-- An association list from strings to `β`, kept sorted by `lexLt` with unique
keys: the model of `std::map<std::string, β>`. -/
abbrev AList (β : Type) : Type := List (List Char × β)

/-- `std::map::insert(std::make_pair(key, v))`: sorted insertion that keeps the
existing entry when the key is already present (insert does not overwrite). -/
def mapInsert {β : Type} (key : List Char) (v : β) : AList β → AList β
  | [] => [(key, v)]
  | (k, w) :: rest =>
    if lexLt key k then (key, v) :: (k, w) :: rest
    else if key = k then (k, w) :: rest
    else (k, w) :: mapInsert key v rest

/-- `std::map::erase(key)`: removes every entry whose key equals `key`
(at most one in a well-formed map). -/
def mapErase {β : Type} (key : List Char) : AList β → AList β
  | [] => []
  | (k, w) :: rest => if key = k then mapErase key rest else (k, w) :: mapErase key rest

/-- `std::map::find(key)`: exact-key lookup. -/
def mapFind? {β : Type} (key : List Char) : AList β → Option β
  | [] => none
  | (k, w) :: rest => if key = k then some w else mapFind? key rest

/-- Handlers are identified abstractly; the registry stores handler
identifiers (`RequestHandler` values are opaque callables in the source). -/
abbrev ResourceMap : Type := AList Nat

/-- The redirect table: resource to resource (`RedirectMap` in the source). -/
abbrev RedirectMap : Type := AList (List Char)

/-- Modelled from the spec: `stripTrailingSlash` is declared in
`pion/http/server.hpp`, which is not part of the excerpt; the spec says a
single trailing '/' is stripped ("Strip trailing '/'", "a single trailing '/'
is stripped for comparison and storage"). -/
def stripTrailingSlash (s : List Char) : List Char :=
  if s.getLast? = some '/' then s.dropLast else s

/-- `HTTPServer::MAX_REDIRECTS` (`http_server.cpp`, line 23). -/
def MAX_REDIRECTS : Nat := 10

/-- An HTTP request message, restricted to the fields dispatch reads:
`getResource()`, `getOriginalResource()`, `isValid()`. -/
structure Request where
  resource : List Char
  originalResource : List Char
  valid : Bool
deriving DecidableEq

/-- Modelled from the spec: `HTTPRequest::changeResource` lives in the
message class, outside the excerpt; per the spec "`original_resource` is set
once at parse completion and never changes; `resource` may be rewritten by
the redirect step", so it rewrites only the `resource` field. -/
def changeResource (req : Request) (res : List Char) : Request :=
  { req with resource := res }

/-- Connection lifecycle flag (`connection::LIFECYCLE_CLOSE` / keep-alive). -/
inductive Lifecycle where
  | close
  | keepalive
deriving DecidableEq

/-- The slice of `tcp::connection` state dispatch touches:
`set_lifecycle` and `is_open()`. -/
structure Conn where
  lifecycle : Lifecycle
  isOpen : Bool
deriving DecidableEq

/-- A `boost::system::error_code` as dispatch inspects it: its truth value
(`value != 0`) and whether its category is the HTTP parser's error category. -/
structure ErrorCode where
  value : Nat
  parserCategory : Bool
deriving DecidableEq

/-- What a registered handler does when invoked: return normally, throw
`std::bad_alloc`, or throw some other `std::exception` carrying a message. -/
inductive HandlerBehavior where
  | ok
  | throwBadAlloc
  | throwStd (msg : List Char)
deriving DecidableEq

/-- The `HTTPServer` state dispatch reads: `m_resources`, `m_redirects`,
the optional authenticator (`m_auth_ptr`, modelled by what its
`handleRequest` returns), and the behavior of each registered handler. -/
structure Server where
  resources : ResourceMap
  redirects : RedirectMap
  auth : Option Bool
  behavior : Nat → HandlerBehavior

/-- An HTTP response as the default responders build it. -/
structure Response where
  statusCode : Nat
  body : List Char
deriving DecidableEq

/-- `BAD_REQUEST_HTML` (`http_server.cpp`, lines 176-182). -/
def BAD_REQUEST_HTML : List Char :=
  ("<html><head>\n<title>400 Bad Request</title>\n</head><body>\n<h1>Bad Request</h1>\n<p>Your browser sent a request that this server could not understand.</p>\n</body></html>\n").toList

/-- `NOT_FOUND_HTML_START` (`http_server.cpp`, lines 194-199). -/
def NOT_FOUND_HTML_START : List Char :=
  ("<html><head>\n<title>404 Not Found</title>\n</head><body>\n<h1>Not Found</h1>\n<p>The requested URL ").toList

/-- `NOT_FOUND_HTML_FINISH` (`http_server.cpp`, lines 200-202). -/
def NOT_FOUND_HTML_FINISH : List Char :=
  (" was not found on this server.</p>\n</body></html>\n").toList

/-- `SERVER_ERROR_HTML_START` (`http_server.cpp`, lines 217-222). -/
def SERVER_ERROR_HTML_START : List Char :=
  ("<html><head>\n<title>500 Server Error</title>\n</head><body>\n<h1>Internal Server Error</h1>\n<p>The server encountered an internal error: <strong>").toList

/-- `SERVER_ERROR_HTML_FINISH` (`http_server.cpp`, lines 223-225). -/
def SERVER_ERROR_HTML_FINISH : List Char :=
  ("</strong></p>\n</body></html>\n").toList

/-- The error message passed to the server-error handler when the redirect
bound is exceeded (`http_server.cpp`, line 65). -/
def REDIRECT_ERROR_MSG : List Char :=
  ("Maximum number of redirects (HTTPServer::MAX_REDIRECTS) exceeded for requested resource").toList

/-- `HTTPServer::handleBadRequest`: a 400 response with the canonical body. -/
def badRequestResponse : Response :=
  { statusCode := 400, body := BAD_REQUEST_HTML }

/-- `HTTPServer::handleNotFoundRequest`: a 404 response embedding
`http_request->getResource()` in the body. -/
def notFoundResponse (req : Request) : Response :=
  { statusCode := 404,
    body := NOT_FOUND_HTML_START ++ req.resource ++ NOT_FOUND_HTML_FINISH }

/-- `HTTPServer::handleServerError`: a 500 response embedding the error
message in the body. -/
def serverErrorResponse (msg : List Char) : Response :=
  { statusCode := 500, body := SERVER_ERROR_HTML_START ++ msg ++ SERVER_ERROR_HTML_FINISH }

/-- Modelled from the spec: `boost::diagnostic_information(e)` is an external
collaborator; the spec requires the 500 response to carry "the error's
diagnostic text", so the diagnostic text of an exception is modelled as the
message it was thrown with. -/
def diagnosticInformation (msg : List Char) : List Char := msg

/-- Acceptance test applied to one registry key inside
`HTTPServer::findRequestHandler` (`http_server.cpp`, lines 133-136):
`i->first.empty() || resource.compare(0, i->first.size(), i->first) == 0`,
then `resource.size() == i->first.size() || resource[i->first.size()] == '/'`
(the index is only reachable in bounds; the `getD` default is immaterial). -/
def acceptKey (resource key : List Char) : Bool :=
  (key.isEmpty || key.isPrefixOf resource) &&
    (resource.length == key.length || resource.getD key.length '\x00' == '/')

/-- The descending walk from `upper_bound` back to `begin`
(`http_server.cpp`, lines 130-141), given the entries with key ≤ resource
already reversed into descending order: return the first accepted entry. -/
def descendingSearch (resource : List Char) : List (List Char × Nat) → Option Nat
  | [] => none
  | (k, h) :: rest => if acceptKey resource k then some h else descendingSearch resource rest

/-- `HTTPServer::findRequestHandler` (`http_server.cpp`, lines 120-144):
empty-map check, then `upper_bound(resource)` (on the sorted map, the
entries with key ≤ resource are the maximal `takeWhile` prefix) and the
descending walk. Returns the accepted handler, or `none`. -/
def findRequestHandler (m : ResourceMap) (resource : List Char) : Option Nat :=
  if m.isEmpty then none
  else descendingSearch resource ((m.takeWhile fun p => !(lexLt resource p.1)).reverse)

/-- `HTTPServer::addResource` (`http_server.cpp`, lines 146-153). -/
def addResource (m : ResourceMap) (resource : List Char) (h : Nat) : ResourceMap :=
  mapInsert (stripTrailingSlash resource) h m

/-- `HTTPServer::removeResource` (`http_server.cpp`, lines 155-161). -/
def removeResource (m : ResourceMap) (resource : List Char) : ResourceMap :=
  mapErase (stripTrailingSlash resource) m

/-- `HTTPServer::addRedirect` (`http_server.cpp`, lines 163-171). -/
def addRedirect (rt : RedirectMap) (src tgt : List Char) : RedirectMap :=
  mapInsert (stripTrailingSlash src) (stripTrailingSlash tgt) rt

/-- State carried by the redirect-resolution loop of
`HTTPServer::handleRequest`: the request, the local `resource_requested`
string, the `num_redirects` counter, and whether the bound was exceeded. -/
structure RedirState where
  request : Request
  resource : List Char
  numRedirects : Nat
  exceeded : Bool
deriving DecidableEq

/-- The redirect-resolution `while` loop (`http_server.cpp`, lines 60-71).
`fuel` counts the rewrites still allowed before `++num_redirects` exceeds
`MAX_REDIRECTS`; the loop is entered with `fuel = MAX_REDIRECTS` and
`numRedirects = 0`, so `fuel = MAX_REDIRECTS - numRedirects` throughout and
the recursion terminates exactly as the counter check does. -/
def redirectLoop (rt : RedirectMap) (req : Request) (res : List Char)
    (numRedirects fuel : Nat) : RedirState :=
  match mapFind? res rt with
  | none => { request := req, resource := res, numRedirects := numRedirects, exceeded := false }
  | some tgt =>
    match fuel with
    | 0 =>
      { request := req, resource := res, numRedirects := numRedirects + 1, exceeded := true }
    | fuel' + 1 =>
      redirectLoop rt (changeResource req tgt) tgt (numRedirects + 1) fuel'

/-- How one call to `HTTPServer::handleRequest` ended. `badRequest`:
`m_bad_request_handler` invoked; `lostConnection`: `tcp_conn->finish()`
called silently; `redirectExceeded`: the server-error handler invoked with
`REDIRECT_ERROR_MSG`; `authHandled`: the authenticator already sent the
response; `handlerOk`: the handler returned normally; `fatalBadAlloc`:
`std::bad_alloc` propagated out unhandled; `handlerError`: another exception
was caught and the server-error handler invoked; `notFound`:
`m_not_found_handler` invoked. -/
inductive DispatchResult where
  | badRequest
  | lostConnection
  | redirectExceeded
  | authHandled
  | handlerOk
  | fatalBadAlloc
  | handlerError (msg : List Char)
  | notFound
deriving DecidableEq

/-- The observable outcome of `HTTPServer::handleRequest`: how it ended, the
final request and connection state, the final `num_redirects` counter, and
the response emitted by a default responder (`none` when no default
responder ran: silent close, auth-handled, normal handler return, or a
propagating `std::bad_alloc`). -/
structure DispatchOutcome where
  result : DispatchResult
  request : Request
  conn : Conn
  numRedirects : Nat
  response : Option Response
deriving DecidableEq

/-- The tail of `HTTPServer::handleRequest` after redirect resolution
succeeded (`http_server.cpp`, lines 73-117): authentication gate, handler
lookup under the exception envelope, or the not-found responder. `st` is the
redirect-loop state (`http_request` and the local `resource_requested`). -/
def dispatchResolved (srv : Server) (st : RedirState) (conn : Conn) : DispatchOutcome :=
  if srv.auth = some false then
    { result := .authHandled, request := st.request, conn := conn,
      numRedirects := st.numRedirects, response := none }
  else
    match findRequestHandler srv.resources st.resource with
    | some h =>
      match srv.behavior h with
      | .ok =>
        { result := .handlerOk, request := st.request, conn := conn,
          numRedirects := st.numRedirects, response := none }
      | .throwBadAlloc =>
        { result := .fatalBadAlloc, request := st.request, conn := conn,
          numRedirects := st.numRedirects, response := none }
      | .throwStd msg =>
        { result := .handlerError (diagnosticInformation msg), request := st.request,
          conn := conn, numRedirects := st.numRedirects,
          response := some (serverErrorResponse (diagnosticInformation msg)) }
    | none =>
      { result := .notFound, request := st.request, conn := conn,
        numRedirects := st.numRedirects, response := some (notFoundResponse st.request) }

/-- `HTTPServer::handleRequest` past the error gate (`http_server.cpp`,
lines 54-117): trailing-slash strip into the local `resource_requested`,
redirect resolution with its bound check, then `dispatchResolved`. -/
def dispatchValid (srv : Server) (req : Request) (conn : Conn) : DispatchOutcome :=
  let res0 := stripTrailingSlash req.resource
  let st := redirectLoop srv.redirects req res0 0 MAX_REDIRECTS
  if st.exceeded then
    { result := .redirectExceeded, request := st.request, conn := conn,
      numRedirects := st.numRedirects, response := some (serverErrorResponse REDIRECT_ERROR_MSG) }
  else
    dispatchResolved srv st conn

/-- `HTTPServer::handleRequest` (`http_server.cpp`, lines 37-118): the error
gate (`ec || !http_request->isValid()`), then the valid-request path. -/
def handleRequest (srv : Server) (req : Request) (conn : Conn) (ec : ErrorCode) :
    DispatchOutcome :=
  if ec.value != 0 || !req.valid then
    let conn' : Conn := { conn with lifecycle := .close }
    if conn'.isOpen && ec.parserCategory then
      { result := .badRequest, request := req, conn := conn', numRedirects := 0,
        response := some badRequestResponse }
    else
      { result := .lostConnection, request := req, conn := conn', numRedirects := 0,
        response := none }
  else
    dispatchValid srv req conn

/-- The matching condition of the spec: `R == K` or `R` starts with `K ++ "/"`. -/
def matchKey (resource key : List Char) : Bool :=
  resource == key || (key ++ ['/']).isPrefixOf resource

/-- Well-formedness invariant of a `std::map` model: keys strictly ascending. -/
abbrev MapWF {β : Type} (m : AList β) : Prop :=
  List.Pairwise (fun a b => lexLt a.1 b.1 = true) m

/-- Iterated redirect lookup: follow the table `n` times from `res`,
stalling at the first resource absent from the table. -/
def rtIter (rt : RedirectMap) : Nat → List Char → List Char
  | 0, res => res
  | n + 1, res =>
    match mapFind? res rt with
    | none => res
    | some tgt => rtIter rt n tgt

/-! ### Order lemmas for `lexLt` -/

theorem lexLt_cons_iff {x y : Char} {xs ys : List Char} :
    lexLt (x :: xs) (y :: ys) = true ↔ x < y ∨ (x = y ∧ lexLt xs ys = true) := by
  by_cases h1 : x < y
  · simp [lexLt, h1]
  · by_cases h2 : x = y
    · subst h2
      simp [lexLt, h1]
    · simp [lexLt, h1, h2]

theorem lexLt_irrefl (a : List Char) : lexLt a a = false := by
  induction a with
  | nil => rfl
  | cons x xs ih => simp [lexLt, lt_irrefl, ih]

theorem lexLt_trans {a b c : List Char} (h1 : lexLt a b = true) (h2 : lexLt b c = true) :
    lexLt a c = true := by
  induction a generalizing b c with
  | nil =>
    cases b with
    | nil => simp [lexLt] at h1
    | cons y ys =>
      cases c with
      | nil => simp [lexLt] at h2
      | cons z zs => rfl
  | cons x xs ih =>
    cases b with
    | nil => simp [lexLt] at h1
    | cons y ys =>
      cases c with
      | nil => simp [lexLt] at h2
      | cons z zs =>
        rw [lexLt_cons_iff] at h1 h2 ⊢
        rcases h1 with hxy | ⟨rfl, hxs⟩
        · rcases h2 with hyz | ⟨rfl, _⟩
          · exact Or.inl (lt_trans hxy hyz)
          · exact Or.inl hxy
        · rcases h2 with hyz | ⟨rfl, hys⟩
          · exact Or.inl hyz
          · exact Or.inr ⟨rfl, ih hxs hys⟩

theorem lexLt_asymm {a b : List Char} (h : lexLt a b = true) : lexLt b a = false := by
  by_contra hc
  rw [Bool.not_eq_false] at hc
  have := lexLt_trans h hc
  rw [lexLt_irrefl] at this
  exact Bool.false_ne_true this

theorem lexLt_append_self (a t : List Char) : lexLt (a ++ t) a = false := by
  induction a with
  | nil => cases t <;> rfl
  | cons x xs ih => simp [lexLt, lt_irrefl, ih]

theorem lexLt_not_of_pref {a b : List Char} (h : a <+: b) : lexLt b a = false := by
  obtain ⟨t, rfl⟩ := h
  exact lexLt_append_self a t

theorem lexLt_append_cons (a : List Char) (c : Char) (t : List Char) :
    lexLt a (a ++ c :: t) = true := by
  induction a with
  | nil => rfl
  | cons x xs ih => simp [lexLt, lt_irrefl, ih]

theorem lexLt_of_pref_ne {a b : List Char} (h : a <+: b) (hne : a ≠ b) :
    lexLt a b = true := by
  obtain ⟨t, rfl⟩ := h
  cases t with
  | nil => simp at hne
  | cons c t' => exact lexLt_append_cons a c t'

/-! ### The acceptance test equals the spec's matching condition -/

theorem matchKey_pref {r k : List Char} (h : matchKey r k = true) : k <+: r := by
  rw [matchKey, Bool.or_eq_true] at h
  rcases h with h | h
  · rw [beq_iff_eq] at h
    exact h ▸ List.prefix_refl k
  · rw [ List.isPrefixOf_iff_prefix] at h
    exact ( List.prefix_append k ['/']).trans h

theorem acceptKey_iff {r k : List Char} : acceptKey r k = true ↔ matchKey r k = true := by
  constructor
  · intro h
    rw [acceptKey, Bool.and_eq_true, Bool.or_eq_true, Bool.or_eq_true] at h
    obtain ⟨h1, h2⟩ := h
    have hpre : k <+: r := by
      rcases h1 with h1 | h1
      · rw [List.isEmpty_iff] at h1
        subst h1
        exact List.nil_prefix
      · rw [ List.isPrefixOf_iff_prefix] at h1
        exact h1
    obtain ⟨t, rfl⟩ := hpre
    rcases h2 with h2 | h2
    · rw [beq_iff_eq, List.length_append] at h2
      have ht : t = [] := by
        have : t.length = 0 := by omega
        exact List.length_eq_zero.mp this
      subst ht
      rw [matchKey, Bool.or_eq_true, beq_iff_eq]
      exact Or.inl (List.append_nil k)
    · cases t with
      | nil =>
        rw [List.append_nil, List.getD_eq_default k _ (le_refl k.length)] at h2
        simp at h2
      | cons c t' =>
        rw [List.getD_append_right k _ _ _ (le_refl k.length), Nat.sub_self] at h2
        simp only [List.getD, List.get?_cons_zero, Option.getD_some, beq_iff_eq] at h2
        subst h2
        rw [matchKey, Bool.or_eq_true]
        refine Or.inr ?_
        rw [ List.isPrefixOf_iff_prefix]
        exact ⟨t', by simp⟩
  · intro h
    have hpre := matchKey_pref h
    rw [matchKey, Bool.or_eq_true] at h
    rw [acceptKey, Bool.and_eq_true, Bool.or_eq_true, Bool.or_eq_true]
    refine ⟨Or.inr ?_, ?_⟩
    · rw [ List.isPrefixOf_iff_prefix]
      exact hpre
    · rcases h with h | h
      · rw [beq_iff_eq] at h
        subst h
        exact Or.inl (beq_iff_eq.mpr rfl)
      · rw [ List.isPrefixOf_iff_prefix] at h
        obtain ⟨t, ht⟩ := h
        rw [List.append_assoc] at ht
        subst ht
        refine Or.inr ?_
        rw [List.getD_append_right k _ _ _ (le_refl k.length), Nat.sub_self]
        rfl

theorem acceptKey_eq_matchKey (r k : List Char) : acceptKey r k = matchKey r k := by
  rw [Bool.eq_iff_iff]
  exact acceptKey_iff

/-! ### The descending walk picks the lexicographically greatest match -/

theorem descendingSearch_spec {r : List Char} {L : List (List Char × Nat)}
    (hd : L.Pairwise (fun a b => lexLt b.1 a.1 = true))
    (hex : ∃ p ∈ L, matchKey r p.1 = true) :
    ∃ p ∈ L, descendingSearch r L = some p.2 ∧ matchKey r p.1 = true ∧
      ∀ q ∈ L, matchKey r q.1 = true → q.1 = p.1 ∨ lexLt q.1 p.1 = true := by
  induction L with
  | nil =>
    obtain ⟨p, hp, _⟩ := hex
    exact absurd hp (List.not_mem_nil p)
  | cons a L ih =>
    by_cases ha : matchKey r a.1 = true
    · refine ⟨a, List.mem_cons_self a L, ?_, ha, ?_⟩
      · rw [descendingSearch, acceptKey_eq_matchKey, ha, if_pos rfl]
      · intro q hq hmq
        rcases List.mem_cons.mp hq with rfl | hq
        · exact Or.inl rfl
        · exact Or.inr ((List.pairwise_cons.mp hd).1 q hq)
    · have hex' : ∃ p ∈ L, matchKey r p.1 = true := by
        obtain ⟨p, hp, hmp⟩ := hex
        rcases List.mem_cons.mp hp with rfl | hp
        · exact absurd hmp ha
        · exact ⟨p, hp, hmp⟩
      obtain ⟨p, hp, hfind, hmp, hmax⟩ := ih (List.pairwise_cons.mp hd).2 hex'
      refine ⟨p, List.mem_cons_of_mem a hp, ?_, hmp, ?_⟩
      · rw [descendingSearch, acceptKey_eq_matchKey, if_neg ha]
        exact hfind
      · intro q hq hmq
        rcases List.mem_cons.mp hq with rfl | hq
        · exact absurd hmq ha
        · exact hmax q hq hmq

/-- In a sorted map, every entry with key ≤ the query survives the
`upper_bound` cut (the `takeWhile` prefix). -/
theorem mem_takeWhile_of_le {r : List Char} {m : List (List Char × Nat)} {p : List Char × Nat}
    (hwf : m.Pairwise (fun a b => lexLt a.1 b.1 = true))
    (hp : p ∈ m) (hle : lexLt r p.1 = false) :
    p ∈ m.takeWhile fun q => !(lexLt r q.1) := by
  induction m with
  | nil => cases hp
  | cons a m ih =>
    rcases List.mem_cons.mp hp with rfl | hp'
    · rw [List.takeWhile_cons_of_pos (by rw [hle]; rfl)]
      exact List.mem_cons_self _ _
    · have haP : lexLt r a.1 = false := by
        by_contra hc
        rw [Bool.not_eq_false] at hc
        have hap := (List.pairwise_cons.mp hwf).1 p hp'
        have := lexLt_trans hc hap
        rw [hle] at this
        exact Bool.false_ne_true this
      rw [List.takeWhile_cons_of_pos (by rw [haP]; rfl)]
      exact List.mem_cons_of_mem a (ih (List.pairwise_cons.mp hwf).2 hp')

/-- Full correctness of `HTTPServer::findRequestHandler` on a well-formed
registry: when some key matches the spec's condition, the lookup succeeds and
returns the handler stored under the longest matching key. -/
theorem findRequestHandler_spec {m : ResourceMap} {r : List Char}
    (hwf : MapWF m) (hex : ∃ p ∈ m, matchKey r p.1 = true) :
    ∃ p ∈ m, findRequestHandler m r = some p.2 ∧ matchKey r p.1 = true ∧
      ∀ q ∈ m, matchKey r q.1 = true → q.1.length ≤ p.1.length := by
  have hsub : List.Sublist (m.takeWhile fun q => !(lexLt r q.1)) m :=
    List.takeWhile_sublist _
  have hdesc : ((m.takeWhile fun q => !(lexLt r q.1)).reverse).Pairwise
      (fun a b => lexLt b.1 a.1 = true) := by
    rw [List.pairwise_reverse]
    exact List.Pairwise.sublist hsub hwf
  have hexL : ∃ p ∈ (m.takeWhile fun q => !(lexLt r q.1)).reverse, matchKey r p.1 = true := by
    obtain ⟨p, hp, hmp⟩ := hex
    refine ⟨p, ?_, hmp⟩
    rw [List.mem_reverse]
    exact mem_takeWhile_of_le hwf hp (lexLt_not_of_pref (matchKey_pref hmp))
  obtain ⟨p, hpL, hfind, hmp, hmax⟩ := descendingSearch_spec hdesc hexL
  have hpm : p ∈ m := hsub.mem (List.mem_reverse.mp hpL)
  refine ⟨p, hpm, ?_, hmp, ?_⟩
  · rw [findRequestHandler, if_neg ?_]
    · exact hfind
    · intro hE
      rw [List.isEmpty_iff] at hE
      subst hE
      cases hpm
  · intro q hq hmq
    have hqL : q ∈ (m.takeWhile fun q => !(lexLt r q.1)).reverse := by
      rw [List.mem_reverse]
      exact mem_takeWhile_of_le hwf hq (lexLt_not_of_pref (matchKey_pref hmq))
    rcases hmax q hqL hmq with heq | hlt
    · rw [heq]
    · have hqp := matchKey_pref hmq
      have hpp := matchKey_pref hmp
      rcases List.prefix_or_prefix_of_prefix hqp hpp with h | h
      · exact h.length_le
      · rw [lexLt_not_of_pref h] at hlt
        exact absurd hlt Bool.false_ne_true

/-! ### Normalisation and registry-mutation lemmas -/

/-- `stripTrailingSlash` either leaves the string alone or removes exactly
one final '/'. -/
theorem stripTrailingSlash_cases (s : List Char) :
    stripTrailingSlash s = s ∨ s = stripTrailingSlash s ++ ['/'] := by
  by_cases hl : s.getLast? = some '/'
  · refine Or.inr ?_
    rw [stripTrailingSlash, if_pos hl]
    have hne : s ≠ [] := by
      rintro rfl
      simp at hl
    have hlast : s.getLast hne = '/' := by
      rw [List.getLast?_eq_getLast s hne] at hl
      exact Option.some_injective _ hl.symm |>.symm
    rw [← hlast]
    exact (List.dropLast_append_getLast hne).symm
  · exact Or.inl (by rw [stripTrailingSlash, if_neg hl])

/-- The stripped resource matches itself as a registry key. -/
theorem matchKey_strip_self (s : List Char) : matchKey s (stripTrailingSlash s) = true := by
  rcases stripTrailingSlash_cases s with heq | heq
  · rw [heq, matchKey, Bool.or_eq_true, beq_iff_eq]
    exact Or.inl rfl
  · rw [matchKey, Bool.or_eq_true]
    refine Or.inr ?_
    rw [ List.isPrefixOf_iff_prefix]
    exact heq ▸ List.prefix_refl _

/-- Re-inserting an existing key leaves the map unchanged
(`std::map::insert` does not overwrite). -/
theorem mapInsert_mapInsert (key : List Char) {β : Type} (v w : β) (m : AList β) :
    mapInsert key w (mapInsert key v m) = mapInsert key v m := by
  induction m with
  | nil =>
    rw [mapInsert, mapInsert, if_neg (by rw [lexLt_irrefl]; exact Bool.false_ne_true),
      if_pos rfl]
  | cons a m ih =>
    obtain ⟨k1, w1⟩ := a
    rw [mapInsert]
    by_cases h1 : lexLt key k1 = true
    · rw [if_pos h1, mapInsert, if_neg (by rw [lexLt_irrefl]; exact Bool.false_ne_true),
        if_pos rfl]
    · rw [if_neg h1]
      by_cases h2 : key = k1
      · rw [if_pos h2, mapInsert, if_neg h1, if_pos h2]
      · rw [if_neg h2, mapInsert, if_neg h1, if_neg h2, ih]

/-- Erasing a key twice is the same as erasing it once. -/
theorem mapErase_idem {β : Type} (key : List Char) (m : AList β) :
    mapErase key (mapErase key m) = mapErase key m := by
  induction m with
  | nil => rfl
  | cons a m ih =>
    obtain ⟨k1, w1⟩ := a
    rw [mapErase]
    by_cases h : key = k1
    · rw [if_pos h, ih]
    · rw [if_neg h, mapErase, if_neg h, ih]

/-! ### Claims about the resource registry -/

/-- C1: for every well-formed registry containing at least one key `K` with
`R == K` or `R` starting with `K ++ "/"`, `findRequestHandler R` succeeds and
returns the handler stored under the longest such key (located by walking
descending from the greatest key ≤ `R` and accepting the first
path-segment-boundary match). -/
theorem C1_find_returns_longest_match {m : ResourceMap} {r : List Char}
    (hwf : MapWF m) (hex : ∃ p ∈ m, matchKey r p.1 = true) :
    ∃ p ∈ m, findRequestHandler m r = some p.2 ∧ matchKey r p.1 = true ∧
      ∀ q ∈ m, matchKey r q.1 = true → q.1.length ≤ p.1.length :=
  findRequestHandler_spec hwf hex

/-- The registry of spec scenario §8.2: keys `""`, `/a`, `/a/b`. -/
def regC1 : ResourceMap :=
  [(([] : List Char), 0), ("/a".toList, 1), ("/a/b".toList, 2)]

theorem C1_witness :
    ∃ p ∈ regC1, findRequestHandler regC1 ("/a/b/c".toList) = some p.2 ∧
      matchKey ("/a/b/c".toList) p.1 = true ∧
      ∀ q ∈ regC1, matchKey ("/a/b/c".toList) q.1 = true → q.1.length ≤ p.1.length :=
  C1_find_returns_longest_match (by decide) (by decide)

/-- C2 counterexample: `addResource` twice under the same key keeps the
first handler, because `std::map::insert` does not overwrite an existing
entry; `findRequestHandler` then returns the first handler, not the second. -/
theorem C2_counterexample :
    findRequestHandler (addResource (addResource [] ("/a".toList) 1) ("/a".toList) 2)
        ("/a".toList) = some 1 ∧ (1 : Nat) ≠ 2 := by
  constructor
  · decide
  · decide

/-- C2 (amended): after `addResource(K, h); addResource(K, h')` on an empty
registry, `findRequestHandler(K)` returns `h` (the second insert is a
no-op), and `removeResource(K)` twice is a no-op the second time. -/
theorem C2_add_keeps_first_remove_idem (K K' : List Char) (h h' : Nat) (m : ResourceMap) :
    findRequestHandler (addResource (addResource [] K h) K h') K = some h ∧
      removeResource (removeResource m K') K' = removeResource m K' := by
  constructor
  · simp only [addResource]
    rw [mapInsert_mapInsert]
    have hwf : MapWF (mapInsert (stripTrailingSlash K) h []) := by
      rw [mapInsert]
      exact List.pairwise_singleton _ _
    have hex : ∃ p ∈ mapInsert (stripTrailingSlash K) h [], matchKey K p.1 = true := by
      refine ⟨(stripTrailingSlash K, h), ?_, matchKey_strip_self K⟩
      rw [mapInsert]
      exact List.mem_singleton.mpr rfl
    obtain ⟨p, hpm, hfind, -, -⟩ := findRequestHandler_spec hwf hex
    rw [mapInsert] at hpm
    rw [List.mem_singleton.mp hpm] at hfind
    exact hfind
  · simp only [removeResource]
    rw [mapErase_idem]

/-- C6 counterexample: a registry whose only key is the empty string does
not match the resource `"x"`: the inner test requires the resource to be
empty or to have '/' at position 0, so `findRequestHandler` fails. -/
theorem C6_counterexample :
    (((([] : List Char), 7)) ∈ ([((([] : List Char)), 7)] : ResourceMap)) ∧
      findRequestHandler ([((([] : List Char)), 7)] : ResourceMap) ['x'] = none := by
  constructor
  · decide
  · decide

/-- C6 (amended): in a well-formed registry containing the empty key,
`findRequestHandler` succeeds for every resource that is empty or starts
with '/': the empty key is a catch-all for exactly those resources. -/
theorem C6_empty_key_catch_all {m : ResourceMap} {h : Nat} {r : List Char}
    (hwf : MapWF m) (hmem : ((([] : List Char)), h) ∈ m)
    (hr : r = [] ∨ r.head? = some '/') :
    (findRequestHandler m r).isSome = true := by
  have hmatch : matchKey r [] = true := by
    rcases hr with rfl | hr
    · decide
    · cases r with
      | nil => simp at hr
      | cons c t =>
        rw [List.head?_cons] at hr
        have hc : c = '/' := Option.some_injective _ hr.symm |>.symm
        subst hc
        rw [matchKey, Bool.or_eq_true]
        refine Or.inr ?_
        rw [ List.isPrefixOf_iff_prefix, List.nil_append]
        exact ⟨t, rfl⟩
  obtain ⟨p, -, hfind, -, -⟩ := findRequestHandler_spec hwf ⟨([], h), hmem, hmatch⟩
  rw [hfind]
  rfl

theorem C6_witness :
    MapWF ([((([] : List Char)), 7)] : ResourceMap) ∧
      (findRequestHandler ([((([] : List Char)), 7)] : ResourceMap) ("/z".toList)).isSome
        = true :=
  ⟨by decide, @C6_empty_key_catch_all _ 7 _ (by decide) (by decide) (by decide)⟩

/-! ### Redirect-loop lemmas -/

theorem changeResource_changeResource (req : Request) (a b : List Char) :
    changeResource (changeResource req a) b = changeResource req b := rfl

theorem rtIter_succ_of_find {rt : RedirectMap} {res tgt : List Char}
    (h : mapFind? res rt = some tgt) (n : Nat) :
    rtIter rt (n + 1) res = rtIter rt n tgt := by
  rw [rtIter, h]

theorem rtIter_stall {rt : RedirectMap} {res : List Char}
    (h : mapFind? res rt = none) (k : Nat) : rtIter rt k res = res := by
  cases k with
  | zero => rfl
  | succ k => rw [rtIter, h]

theorem rtIter_add (rt : RedirectMap) (a b : Nat) (res : List Char) :
    rtIter rt (a + b) res = rtIter rt b (rtIter rt a res) := by
  induction a generalizing res with
  | zero => rw [Nat.zero_add, rtIter]
  | succ a ih =>
    cases hfind : mapFind? res rt with
    | none =>
      rw [rtIter_stall hfind, rtIter_stall hfind, rtIter_stall hfind]
    | some tgt =>
      rw [show a + 1 + b = (a + b) + 1 by omega, rtIter_succ_of_find hfind,
        rtIter_succ_of_find hfind, ih]

/-- Loop exit: the current resource has no table entry. -/
theorem redirectLoop_none {rt : RedirectMap} {res : List Char} (req : Request)
    (nr fuel : Nat) (h : mapFind? res rt = none) :
    redirectLoop rt req res nr fuel =
      { request := req, resource := res, numRedirects := nr, exceeded := false } := by
  cases fuel <;> rw [redirectLoop, h]

/-- Loop step: a table entry exists and fuel remains. -/
theorem redirectLoop_step {rt : RedirectMap} {res tgt : List Char} (req : Request)
    (nr fuel : Nat) (h : mapFind? res rt = some tgt) :
    redirectLoop rt req res nr (fuel + 1) =
      redirectLoop rt (changeResource req tgt) tgt (nr + 1) fuel := by
  rw [redirectLoop, h]

/-- Loop bound check: a table entry exists but the counter would exceed
`MAX_REDIRECTS`. -/
theorem redirectLoop_stop {rt : RedirectMap} {res tgt : List Char} (req : Request)
    (nr : Nat) (h : mapFind? res rt = some tgt) :
    redirectLoop rt req res nr 0 =
      { request := req, resource := res, numRedirects := nr + 1, exceeded := true } := by
  rw [redirectLoop, h]

/-- When the chain starting at `res` reaches a table-free resource within
`n ≤ fuel` lookups, the loop stops after some `m ≤ n` rewrites with the
chain's end as the resource, without taking the exceeded branch; the request
is rewritten exactly when `m > 0`. -/
theorem redirectLoop_resolves {rt : RedirectMap} {res : List Char} {n : Nat}
    (req : Request) (nr : Nat) {fuel : Nat} (hn : n ≤ fuel)
    (hend : mapFind? (rtIter rt n res) rt = none) :
    ∃ m, m ≤ n ∧
      redirectLoop rt req res nr fuel =
        { request := if m = 0 then req else changeResource req (rtIter rt m res),
          resource := rtIter rt m res, numRedirects := nr + m, exceeded := false } ∧
      mapFind? (rtIter rt m res) rt = none := by
  induction fuel generalizing n res req nr with
  | zero =>
    have hn0 : n = 0 := Nat.le_zero.mp hn
    subst hn0
    rw [rtIter] at hend
    refine ⟨0, le_refl 0, ?_, by rw [rtIter]; exact hend⟩
    rw [redirectLoop_none req nr 0 hend]
    simp [rtIter]
  | succ f ih =>
    cases hfind : mapFind? res rt with
    | none =>
      refine ⟨0, Nat.zero_le n, ?_, by rw [rtIter]; exact hfind⟩
      rw [redirectLoop_none req nr (f + 1) hfind]
      simp [rtIter]
    | some tgt =>
      cases n with
      | zero =>
        rw [rtIter] at hend
        rw [hend] at hfind
        cases hfind
      | succ k =>
        rw [rtIter_succ_of_find hfind] at hend
        obtain ⟨m, hm, heq, hstop⟩ :=
          ih (changeResource req tgt) (nr + 1) (Nat.le_of_succ_le_succ hn) hend
        refine ⟨m + 1, Nat.succ_le_succ hm, ?_, ?_⟩
        · rw [redirectLoop_step req nr f hfind, heq]
          cases m with
          | zero =>
            simp only [if_pos rfl, if_neg (Nat.succ_ne_zero 0)]
            rw [rtIter_succ_of_find hfind, rtIter]
            refine congrArg₂ (fun a b => RedirState.mk a tgt b false) rfl ?_
            omega
          | succ m' =>
            rw [if_neg (Nat.succ_ne_zero m'), if_neg (Nat.succ_ne_zero (m' + 1))]
            rw [changeResource_changeResource, rtIter_succ_of_find hfind]
            refine congrArg₂ (fun a b => RedirState.mk a (rtIter rt (m' + 1) tgt) b false) rfl ?_
            omega
        · rw [rtIter_succ_of_find hfind]
          exact hstop

/-- When the first `fuel + 1` lookups along the chain all succeed, the loop
performs exactly `fuel` rewrites and then takes the exceeded branch with
`numRedirects = nr + fuel + 1`. -/
theorem redirectLoop_exceeds {rt : RedirectMap} {res : List Char} (req : Request) (nr : Nat)
    {fuel : Nat}
    (h : ∀ m, m ≤ fuel → (mapFind? (rtIter rt m res) rt).isSome = true) :
    redirectLoop rt req res nr fuel =
      { request := if fuel = 0 then req else changeResource req (rtIter rt fuel res),
        resource := rtIter rt fuel res, numRedirects := nr + fuel + 1, exceeded := true } := by
  induction fuel generalizing res req nr with
  | zero =>
    have h0 := h 0 (le_refl 0)
    rw [rtIter] at h0
    cases hfind : mapFind? res rt with
    | none => rw [hfind] at h0; cases h0
    | some tgt =>
      rw [redirectLoop_stop req nr hfind]
      simp [rtIter]
  | succ f ih =>
    have h0 := h 0 (Nat.zero_le _)
    rw [rtIter] at h0
    cases hfind : mapFind? res rt with
    | none => rw [hfind] at h0; cases h0
    | some tgt =>
      rw [redirectLoop_step req nr f hfind]
      have h' : ∀ m, m ≤ f → (mapFind? (rtIter rt m tgt) rt).isSome = true := by
        intro m hm
        have := h (m + 1) (Nat.succ_le_succ hm)
        rw [rtIter_succ_of_find hfind] at this
        exact this
      rw [ih (changeResource req tgt) (nr + 1) h']
      rw [if_neg (Nat.succ_ne_zero f), rtIter_succ_of_find hfind]
      cases f with
      | zero =>
        simp only [if_pos rfl]
        rw [rtIter]
        refine congrArg₂ (fun a b => RedirState.mk a (rtIter rt 0 tgt) b true) rfl ?_
        omega
      | succ f' =>
        rw [if_neg (Nat.succ_ne_zero f'), changeResource_changeResource]
        refine congrArg₂ (fun a b => RedirState.mk a (rtIter rt (f' + 1) tgt) b true) rfl ?_
        omega

/-- Unconditional bounds on the loop: the counter never passes
`nr + fuel + 1`, reaches it exactly on the exceeded branch, and on normal
exit the final resource has no table entry. -/
theorem redirectLoop_bound (rt : RedirectMap) (req : Request) (res : List Char)
    (nr fuel : Nat) :
    (redirectLoop rt req res nr fuel).numRedirects ≤ nr + fuel + 1 ∧
    ((redirectLoop rt req res nr fuel).exceeded = true →
      (redirectLoop rt req res nr fuel).numRedirects = nr + fuel + 1) ∧
    ((redirectLoop rt req res nr fuel).exceeded = false →
      (redirectLoop rt req res nr fuel).numRedirects ≤ nr + fuel ∧
      mapFind? (redirectLoop rt req res nr fuel).resource rt = none) := by
  induction fuel generalizing res req nr with
  | zero =>
    cases hfind : mapFind? res rt with
    | none =>
      rw [redirectLoop_none req nr 0 hfind]
      refine ⟨by simp, ?_, ?_⟩
      · intro h
        simp at h
      · intro _
        exact ⟨by simp, hfind⟩
    | some tgt =>
      rw [redirectLoop_stop req nr hfind]
      refine ⟨by simp, fun _ => by simp, ?_⟩
      intro h
      simp at h
  | succ f ih =>
    cases hfind : mapFind? res rt with
    | none =>
      rw [redirectLoop_none req nr (f + 1) hfind]
      refine ⟨by show nr ≤ nr + (f + 1) + 1; omega, ?_, ?_⟩
      · intro h
        simp at h
      · intro _
        refine ⟨?_, hfind⟩
        show nr ≤ nr + (f + 1)
        omega
    | some tgt =>
      rw [redirectLoop_step req nr f hfind]
      obtain ⟨h1, h2, h3⟩ := ih (changeResource req tgt) tgt (nr + 1)
      refine ⟨by omega, ?_, ?_⟩
      · intro hx
        rw [h2 hx]
        omega
      · intro hx
        obtain ⟨ha, hb⟩ := h3 hx
        exact ⟨by omega, hb⟩

/-! ### Unfolding lemmas for the dispatch pipeline -/

theorem handleRequest_gate_eq {ec : ErrorCode} {req : Request} (srv : Server) (conn : Conn)
    (h : (ec.value != 0 || !req.valid) = true) :
    handleRequest srv req conn ec =
      if conn.isOpen && ec.parserCategory then
        { result := .badRequest, request := req, conn := { conn with lifecycle := .close },
          numRedirects := 0, response := some badRequestResponse }
      else
        { result := .lostConnection, request := req, conn := { conn with lifecycle := .close },
          numRedirects := 0, response := none } := by
  simp only [handleRequest, h]
  rfl

theorem handleRequest_not_gate {ec : ErrorCode} {req : Request} (srv : Server) (conn : Conn)
    (h : (ec.value != 0 || !req.valid) = false) :
    handleRequest srv req conn ec = dispatchValid srv req conn := by
  simp only [handleRequest, h]
  rfl

theorem handleRequest_valid_eq {ec : ErrorCode} {req : Request} (srv : Server) (conn : Conn)
    (hec : ec.value = 0) (hv : req.valid = true) :
    handleRequest srv req conn ec = dispatchValid srv req conn := by
  refine handleRequest_not_gate srv conn ?_
  rw [hec, hv]
  rfl

theorem dispatchValid_eq (srv : Server) (req : Request) (conn : Conn) :
    dispatchValid srv req conn =
      if (redirectLoop srv.redirects req (stripTrailingSlash req.resource) 0
            MAX_REDIRECTS).exceeded then
        { result := .redirectExceeded,
          request := (redirectLoop srv.redirects req (stripTrailingSlash req.resource) 0
            MAX_REDIRECTS).request,
          conn := conn,
          numRedirects := (redirectLoop srv.redirects req (stripTrailingSlash req.resource) 0
            MAX_REDIRECTS).numRedirects,
          response := some (serverErrorResponse REDIRECT_ERROR_MSG) }
      else
        dispatchResolved srv
          (redirectLoop srv.redirects req (stripTrailingSlash req.resource) 0 MAX_REDIRECTS)
          conn := rfl

/-- Fields of the post-redirect dispatch stage that every branch preserves. -/
theorem dispatchResolved_invariants (srv : Server) (st : RedirState) (conn : Conn) :
    (dispatchResolved srv st conn).numRedirects = st.numRedirects ∧
    (dispatchResolved srv st conn).request = st.request ∧
    (dispatchResolved srv st conn).conn = conn ∧
    (dispatchResolved srv st conn).result ≠ .redirectExceeded := by
  unfold dispatchResolved
  by_cases hA : srv.auth = some false
  · rw [if_pos hA]
    exact ⟨rfl, rfl, rfl, by simp⟩
  · rw [if_neg hA]
    cases hF : findRequestHandler srv.resources st.resource with
    | none => exact ⟨rfl, rfl, rfl, by simp⟩
    | some h =>
      cases hB : srv.behavior h with
      | ok => simp [hB]
      | throwBadAlloc => simp [hB]
      | throwStd msg => simp [hB]

/-! ### Claims about the dispatch pipeline -/

/-- C4: on a non-zero error code or an invalid request, the connection
lifecycle is set to CLOSE; the bad-request responder runs iff the connection
is still open and the error's category is the parser category, and otherwise
the connection is finished silently with no response; the function returns
with no redirect resolution, authentication or handler lookup (the outcome
is independent of the registry, redirect table, authenticator and handler
behavior). -/
theorem C4_error_gate {ec : ErrorCode} {req : Request} (srv srv' : Server) (conn : Conn)
    (h : ec.value ≠ 0 ∨ req.valid = false) :
    (handleRequest srv req conn ec).conn.lifecycle = .close ∧
    ((handleRequest srv req conn ec).result = .badRequest ↔
      conn.isOpen = true ∧ ec.parserCategory = true) ∧
    ((handleRequest srv req conn ec).result = .lostConnection ↔
      ¬(conn.isOpen = true ∧ ec.parserCategory = true)) ∧
    ((handleRequest srv req conn ec).result = .badRequest →
      (handleRequest srv req conn ec).response = some badRequestResponse) ∧
    ((handleRequest srv req conn ec).result = .lostConnection →
      (handleRequest srv req conn ec).response = none) ∧
    (handleRequest srv req conn ec).request = req ∧
    (handleRequest srv req conn ec).numRedirects = 0 ∧
    handleRequest srv req conn ec = handleRequest srv' req conn ec := by
  have hb : (ec.value != 0 || !req.valid) = true := by
    rcases h with h | h
    · rw [Bool.or_eq_true, bne_iff_ne]
      exact Or.inl h
    · rw [Bool.or_eq_true, h]
      exact Or.inr rfl
  rw [handleRequest_gate_eq srv conn hb, handleRequest_gate_eq srv' conn hb]
  by_cases hoc : (conn.isOpen && ec.parserCategory) = true
  · rw [if_pos hoc]
    rw [Bool.and_eq_true] at hoc
    refine ⟨rfl, ?_, ?_, fun _ => rfl, ?_, rfl, rfl, rfl⟩
    · exact ⟨fun _ => hoc, fun _ => rfl⟩
    · constructor
      · intro hres
        cases hres
      · intro hcon
        exact absurd hoc hcon
    · intro hres
      cases hres
  · rw [if_neg hoc]
    rw [Bool.and_eq_true] at hoc
    refine ⟨rfl, ?_, ?_, ?_, fun _ => rfl, rfl, rfl, rfl⟩
    · constructor
      · intro hres
        cases hres
      · intro hcon
        exact absurd hcon hoc
    · exact ⟨fun _ => hoc, fun _ => rfl⟩
    · intro hres
      cases hres

/-- Inputs for the error-gate witness: parse error on an open connection. -/
def ecParse : ErrorCode := { value := 1, parserCategory := true }

def connOpen : Conn := { lifecycle := .keepalive, isOpen := true }

def reqPartial : Request :=
  { resource := "/a".toList, originalResource := "/a".toList, valid := false }

def srvPlain : Server :=
  { resources := [], redirects := [], auth := none, behavior := fun _ => .ok }

def srvOther : Server :=
  { resources := regC1, redirects := [("/x".toList, "/y".toList)], auth := some true,
    behavior := fun _ => .throwBadAlloc }

theorem C4_witness :
    ((1 : Nat) ≠ 0 ∨ reqPartial.valid = false) ∧
    (handleRequest srvPlain reqPartial connOpen ecParse).conn.lifecycle = .close ∧
    ((handleRequest srvPlain reqPartial connOpen ecParse).result = .badRequest ↔
      connOpen.isOpen = true ∧ ecParse.parserCategory = true) ∧
    handleRequest srvPlain reqPartial connOpen ecParse =
      handleRequest srvOther reqPartial connOpen ecParse := by
  have hmain :=
    @C4_error_gate ecParse reqPartial srvPlain srvOther connOpen (Or.inl (by decide))
  exact ⟨Or.inl (by decide), hmain.1, hmain.2.1, hmain.2.2.2.2.2.2.2⟩

/-- C9: the redirect-resolution loop always terminates: started with
`num_redirects = 0` and bound `MAX_REDIRECTS`, the counter never exceeds
`MAX_REDIRECTS + 1`, and the loop ends either in the bound-exceeded branch
with the counter exactly `MAX_REDIRECTS + 1` or by exhausting the table
(no entry for the final resource) with the counter at most `MAX_REDIRECTS`;
consequently every dispatch performs at most `MAX_REDIRECTS + 1` iterations. -/
theorem C9_redirect_loop_terminates (rt : RedirectMap) (req : Request) (res : List Char)
    (srv : Server) (conn : Conn) (ec : ErrorCode) :
    (redirectLoop rt req res 0 MAX_REDIRECTS).numRedirects ≤ MAX_REDIRECTS + 1 ∧
    ((redirectLoop rt req res 0 MAX_REDIRECTS).exceeded = true ∧
        (redirectLoop rt req res 0 MAX_REDIRECTS).numRedirects = MAX_REDIRECTS + 1 ∨
      (redirectLoop rt req res 0 MAX_REDIRECTS).exceeded = false ∧
        (redirectLoop rt req res 0 MAX_REDIRECTS).numRedirects ≤ MAX_REDIRECTS ∧
        mapFind? (redirectLoop rt req res 0 MAX_REDIRECTS).resource rt = none) ∧
    (handleRequest srv req conn ec).numRedirects ≤ MAX_REDIRECTS + 1 := by
  obtain ⟨h1, h2, h3⟩ := redirectLoop_bound rt req res 0 MAX_REDIRECTS
  refine ⟨by omega, ?_, ?_⟩
  · cases hx : (redirectLoop rt req res 0 MAX_REDIRECTS).exceeded with
    | true =>
      refine Or.inl ⟨rfl, ?_⟩
      rw [h2 hx, Nat.zero_add]
    | false =>
      obtain ⟨ha, hb⟩ := h3 hx
      exact Or.inr ⟨rfl, by omega, hb⟩
  · by_cases hg : (ec.value != 0 || !req.valid) = true
    · rw [handleRequest_gate_eq srv conn hg]
      by_cases hoc : (conn.isOpen && ec.parserCategory) = true
      · rw [if_pos hoc]
        exact Nat.zero_le _
      · rw [if_neg hoc]
        exact Nat.zero_le _
    · rw [Bool.not_eq_true] at hg
      rw [handleRequest_not_gate srv conn hg, dispatchValid_eq]
      obtain ⟨g1, g2, g3⟩ :=
        redirectLoop_bound srv.redirects req (stripTrailingSlash req.resource) 0 MAX_REDIRECTS
      by_cases hx :
          (redirectLoop srv.redirects req (stripTrailingSlash req.resource) 0
            MAX_REDIRECTS).exceeded = true
      · rw [if_pos hx]
        have hnum := g2 hx
        show (redirectLoop srv.redirects req (stripTrailingSlash req.resource) 0
          MAX_REDIRECTS).numRedirects ≤ MAX_REDIRECTS + 1
        omega
      · rw [if_neg hx]
        obtain ⟨d1, -, -, -⟩ := dispatchResolved_invariants srv
          (redirectLoop srv.redirects req (stripTrailingSlash req.resource) 0 MAX_REDIRECTS)
          conn
        rw [d1]
        omega

/-- Evaluation of the post-redirect stage when no handler matches. -/
theorem dispatchResolved_notFound {srv : Server} {st : RedirState} (conn : Conn)
    (hauth : ¬srv.auth = some false)
    (hfind : findRequestHandler srv.resources st.resource = none) :
    dispatchResolved srv st conn =
      { result := .notFound, request := st.request, conn := conn,
        numRedirects := st.numRedirects, response := some (notFoundResponse st.request) } := by
  unfold dispatchResolved
  simp only [if_neg hauth, hfind]

/-- Evaluation of the post-redirect stage when the handler raises
`std::bad_alloc`: the exception propagates, no responder runs. -/
theorem dispatchResolved_badAlloc {srv : Server} {st : RedirState} {h : Nat} (conn : Conn)
    (hauth : ¬srv.auth = some false)
    (hfind : findRequestHandler srv.resources st.resource = some h)
    (hbeh : srv.behavior h = .throwBadAlloc) :
    dispatchResolved srv st conn =
      { result := .fatalBadAlloc, request := st.request, conn := conn,
        numRedirects := st.numRedirects, response := none } := by
  unfold dispatchResolved
  simp only [if_neg hauth, hfind, hbeh]

/-- Evaluation of the post-redirect stage when the handler raises another
`std::exception`: caught, and the server-error responder runs with the
exception's diagnostic text. -/
theorem dispatchResolved_throwStd {srv : Server} {st : RedirState} {h : Nat}
    {msg : List Char} (conn : Conn)
    (hauth : ¬srv.auth = some false)
    (hfind : findRequestHandler srv.resources st.resource = some h)
    (hbeh : srv.behavior h = .throwStd msg) :
    dispatchResolved srv st conn =
      { result := .handlerError (diagnosticInformation msg), request := st.request,
        conn := conn, numRedirects := st.numRedirects,
        response := some (serverErrorResponse (diagnosticInformation msg)) } := by
  unfold dispatchResolved
  simp only [if_neg hauth, hfind, hbeh]

set_option maxRecDepth 100000

/-- No-error, valid-request error-code value for dispatch scenarios. -/
def ecNone : ErrorCode := { value := 0, parserCategory := false }

/-- The two-entry redirect cycle of spec scenario §8.3. -/
def rtCycle : RedirectMap :=
  [("/x".toList, "/y".toList), ("/y".toList, "/x".toList)]

def srvCycle : Server :=
  { resources := [], redirects := rtCycle, auth := none, behavior := fun _ => .ok }

def reqSlashX : Request :=
  { resource := "/x".toList, originalResource := "/x".toList, valid := true }

/-- C3 counterexample: with the cycle `/x -> /y -> /x`, the emitted 500
response's body does not contain the literal string "Maximum number of
redirects exceeded": the source message interposes
"(HTTPServer::MAX_REDIRECTS)" between "redirects" and "exceeded". -/
theorem C3_counterexample :
    (handleRequest srvCycle reqSlashX connOpen ecNone).response =
      some (serverErrorResponse REDIRECT_ERROR_MSG) ∧
    ¬("Maximum number of redirects exceeded".toList <:+:
        (serverErrorResponse REDIRECT_ERROR_MSG).body) := by
  constructor
  · decide
  · decide

/-- C3 (amended): when resolution from the stripped resource does not reach
a table-free resource within `MAX_REDIRECTS` rewrites, `handleRequest`
performs exactly `MAX_REDIRECTS` rewrites, invokes the server-error
responder instead of any handler, and the response has status 500 with a
body containing "Maximum number of redirects (HTTPServer::MAX_REDIRECTS)
exceeded for requested resource". -/
theorem C3_redirect_bound_exceeded {srv : Server} {req : Request} {ec : ErrorCode}
    (conn : Conn) (hec : ec.value = 0) (hv : req.valid = true)
    (hloop : ∀ m, m ≤ MAX_REDIRECTS →
      (mapFind? (rtIter srv.redirects m (stripTrailingSlash req.resource))
        srv.redirects).isSome = true) :
    (handleRequest srv req conn ec).result = .redirectExceeded ∧
    (handleRequest srv req conn ec).request.resource =
      rtIter srv.redirects MAX_REDIRECTS (stripTrailingSlash req.resource) ∧
    (handleRequest srv req conn ec).numRedirects = MAX_REDIRECTS + 1 ∧
    (handleRequest srv req conn ec).response =
      some (serverErrorResponse REDIRECT_ERROR_MSG) ∧
    (serverErrorResponse REDIRECT_ERROR_MSG).statusCode = 500 ∧
    REDIRECT_ERROR_MSG <:+: (serverErrorResponse REDIRECT_ERROR_MSG).body := by
  have hst := redirectLoop_exceeds req 0 hloop
  have hex : (redirectLoop srv.redirects req (stripTrailingSlash req.resource) 0
      MAX_REDIRECTS).exceeded = true := by rw [hst]
  rw [handleRequest_valid_eq srv conn hec hv, dispatchValid_eq, hex, if_pos rfl]
  refine ⟨rfl, ?_, ?_, rfl, rfl, ?_⟩
  · show (redirectLoop srv.redirects req (stripTrailingSlash req.resource) 0
      MAX_REDIRECTS).request.resource = _
    rw [hst]
    rw [if_neg (by decide : ¬MAX_REDIRECTS = 0)]
    rfl
  · show (redirectLoop srv.redirects req (stripTrailingSlash req.resource) 0
      MAX_REDIRECTS).numRedirects = _
    rw [hst]
    show 0 + MAX_REDIRECTS + 1 = MAX_REDIRECTS + 1
    rw [Nat.zero_add]
  · exact ⟨SERVER_ERROR_HTML_START, SERVER_ERROR_HTML_FINISH, rfl⟩

theorem C3_witness :
    ecNone.value = 0 ∧ reqSlashX.valid = true ∧
    (handleRequest srvCycle reqSlashX connOpen ecNone).result = .redirectExceeded ∧
    (handleRequest srvCycle reqSlashX connOpen ecNone).numRedirects = MAX_REDIRECTS + 1 ∧
    (handleRequest srvCycle reqSlashX connOpen ecNone).response =
      some (serverErrorResponse REDIRECT_ERROR_MSG) := by
  have hmain :=
    @C3_redirect_bound_exceeded srvCycle reqSlashX ecNone connOpen rfl rfl (by decide)
  exact ⟨rfl, rfl, hmain.1, hmain.2.2.1, hmain.2.2.2.1⟩

/-- C8: when the redirect chain from the stripped resource resolves within
`MAX_REDIRECTS` rewrites, resolution terminates without the server-error
responder, leaves `original_resource` (and the validity flag) untouched,
performs at most `MAX_REDIRECTS` rewrites, and the message's resource is
either untouched (no redirect applied) or the chain's final target. -/
theorem C8_redirect_chain_preserves_original {srv : Server} {req : Request} {ec : ErrorCode}
    (conn : Conn) (hec : ec.value = 0) (hv : req.valid = true)
    (hres : mapFind? (rtIter srv.redirects MAX_REDIRECTS (stripTrailingSlash req.resource))
      srv.redirects = none) :
    (handleRequest srv req conn ec).result ≠ .redirectExceeded ∧
    (handleRequest srv req conn ec).request.originalResource = req.originalResource ∧
    (handleRequest srv req conn ec).request.valid = req.valid ∧
    (handleRequest srv req conn ec).numRedirects ≤ MAX_REDIRECTS ∧
    ((handleRequest srv req conn ec).request.resource = req.resource ∨
      (handleRequest srv req conn ec).request.resource =
        rtIter srv.redirects MAX_REDIRECTS (stripTrailingSlash req.resource)) := by
  obtain ⟨m, hm, hst, hstop⟩ := redirectLoop_resolves req 0 (le_refl MAX_REDIRECTS) hres
  have hrmax : rtIter srv.redirects MAX_REDIRECTS (stripTrailingSlash req.resource) =
      rtIter srv.redirects m (stripTrailingSlash req.resource) := by
    rw [show MAX_REDIRECTS = m + (MAX_REDIRECTS - m) from by omega, rtIter_add,
      rtIter_stall hstop]
  have hex : (redirectLoop srv.redirects req (stripTrailingSlash req.resource) 0
      MAX_REDIRECTS).exceeded = false := by rw [hst]
  have heq : handleRequest srv req conn ec =
      dispatchResolved srv
        (redirectLoop srv.redirects req (stripTrailingSlash req.resource) 0 MAX_REDIRECTS)
        conn := by
    rw [handleRequest_valid_eq srv conn hec hv, dispatchValid_eq, hex,
      if_neg Bool.false_ne_true]
  obtain ⟨d1, d2, d3, d4⟩ := dispatchResolved_invariants srv
    (redirectLoop srv.redirects req (stripTrailingSlash req.resource) 0 MAX_REDIRECTS) conn
  rw [heq, d1, d2]
  have hreqf : (redirectLoop srv.redirects req (stripTrailingSlash req.resource) 0
        MAX_REDIRECTS).request =
      if m = 0 then req
      else changeResource req (rtIter srv.redirects m (stripTrailingSlash req.resource)) := by
    rw [hst]
  have hnumf : (redirectLoop srv.redirects req (stripTrailingSlash req.resource) 0
      MAX_REDIRECTS).numRedirects = m := by
    rw [hst]
    show 0 + m = m
    rw [Nat.zero_add]
  refine ⟨d4, ?_, ?_, ?_, ?_⟩
  · rw [hreqf]
    by_cases h0 : m = 0 <;> simp [h0, changeResource]
  · rw [hreqf]
    by_cases h0 : m = 0 <;> simp [h0, changeResource]
  · rw [hnumf]
    omega
  · rw [hreqf]
    by_cases h0 : m = 0
    · rw [if_pos h0]
      exact Or.inl rfl
    · rw [if_neg h0]
      refine Or.inr ?_
      rw [hrmax]
      rfl

def rtOnce : RedirectMap := [("/x".toList, "/y".toList)]

def srvOnce : Server :=
  { resources := [], redirects := rtOnce, auth := none, behavior := fun _ => .ok }

theorem C8_witness :
    mapFind? (rtIter srvOnce.redirects MAX_REDIRECTS (stripTrailingSlash reqSlashX.resource))
        srvOnce.redirects = none ∧
    (handleRequest srvOnce reqSlashX connOpen ecNone).result ≠ .redirectExceeded ∧
    (handleRequest srvOnce reqSlashX connOpen ecNone).request.originalResource =
      reqSlashX.originalResource := by
  have hmain := @C8_redirect_chain_preserves_original srvOnce reqSlashX ecNone connOpen
    rfl rfl (by decide)
  exact ⟨by decide, hmain.1, hmain.2.1⟩

/-- C7 counterexample: with no redirect entry, the request message's own
resource field keeps the trailing slash the client sent: the normalisation
of step 2 strips it only into the local lookup string, never into
`request.resource`. -/
def reqSlashTrail : Request :=
  { resource := "/a/".toList, originalResource := "/a/".toList, valid := true }

theorem C7_counterexample :
    (handleRequest srvPlain reqSlashTrail connOpen ecNone).request.resource = "/a/".toList ∧
    (handleRequest srvPlain reqSlashTrail connOpen ecNone).request.resource ≠
      stripTrailingSlash reqSlashTrail.resource := by
  constructor
  · decide
  · decide

/-- C7 (amended): step 2 strips the trailing '/' only into the local
`resource_requested` lookup string; the request message itself is not
modified, so when no redirect entry applies the message observable after
dispatch equals exactly what the client sent, trailing slash included. -/
theorem C7_request_resource_not_stripped {srv : Server} {req : Request} {ec : ErrorCode}
    (conn : Conn) (hec : ec.value = 0) (hv : req.valid = true)
    (h0 : mapFind? (stripTrailingSlash req.resource) srv.redirects = none) :
    (handleRequest srv req conn ec).request = req := by
  have hst := redirectLoop_none req 0 MAX_REDIRECTS h0
  have hex : (redirectLoop srv.redirects req (stripTrailingSlash req.resource) 0
      MAX_REDIRECTS).exceeded = false := by rw [hst]
  have heq : handleRequest srv req conn ec =
      dispatchResolved srv
        (redirectLoop srv.redirects req (stripTrailingSlash req.resource) 0 MAX_REDIRECTS)
        conn := by
    rw [handleRequest_valid_eq srv conn hec hv, dispatchValid_eq, hex,
      if_neg Bool.false_ne_true]
  rw [heq, (dispatchResolved_invariants srv
    (redirectLoop srv.redirects req (stripTrailingSlash req.resource) 0 MAX_REDIRECTS)
    conn).2.1, hst]

theorem C7_witness :
    ecNone.value = 0 ∧ reqSlashTrail.valid = true ∧
    mapFind? (stripTrailingSlash reqSlashTrail.resource) srvPlain.redirects = none ∧
    (handleRequest srvPlain reqSlashTrail connOpen ecNone).request = reqSlashTrail :=
  ⟨rfl, rfl, by decide,
    @C7_request_resource_not_stripped srvPlain reqSlashTrail ecNone connOpen rfl rfl
      (by decide)⟩

/-- C10: when no handler matches, the not-found responder embeds
`request.getResource()` — the resource as rewritten by any redirect steps —
in the 404 body; when no redirect applied, that is exactly the client-sent
resource, trailing slash included. -/
theorem C10_not_found_embeds_current_resource {srv : Server} {req : Request} {ec : ErrorCode}
    (conn : Conn) (hec : ec.value = 0) (hv : req.valid = true)
    (hauth : srv.auth ≠ some false)
    (hres : mapFind? (rtIter srv.redirects MAX_REDIRECTS (stripTrailingSlash req.resource))
      srv.redirects = none)
    (hfind : findRequestHandler srv.resources
      (rtIter srv.redirects MAX_REDIRECTS (stripTrailingSlash req.resource)) = none) :
    (handleRequest srv req conn ec).result = .notFound ∧
    (handleRequest srv req conn ec).response =
      some (notFoundResponse (handleRequest srv req conn ec).request) ∧
    (notFoundResponse (handleRequest srv req conn ec).request).body =
      NOT_FOUND_HTML_START ++ (handleRequest srv req conn ec).request.resource ++
        NOT_FOUND_HTML_FINISH ∧
    (notFoundResponse (handleRequest srv req conn ec).request).statusCode = 404 ∧
    (mapFind? (stripTrailingSlash req.resource) srv.redirects = none →
      (handleRequest srv req conn ec).request.resource = req.resource) := by
  obtain ⟨m, hm, hst, hstop⟩ := redirectLoop_resolves req 0 (le_refl MAX_REDIRECTS) hres
  have hrmax : rtIter srv.redirects MAX_REDIRECTS (stripTrailingSlash req.resource) =
      rtIter srv.redirects m (stripTrailingSlash req.resource) := by
    rw [show MAX_REDIRECTS = m + (MAX_REDIRECTS - m) from by omega, rtIter_add,
      rtIter_stall hstop]
  have hex : (redirectLoop srv.redirects req (stripTrailingSlash req.resource) 0
      MAX_REDIRECTS).exceeded = false := by rw [hst]
  have heq : handleRequest srv req conn ec =
      dispatchResolved srv
        (redirectLoop srv.redirects req (stripTrailingSlash req.resource) 0 MAX_REDIRECTS)
        conn := by
    rw [handleRequest_valid_eq srv conn hec hv, dispatchValid_eq, hex,
      if_neg Bool.false_ne_true]
  have hfindL : findRequestHandler srv.resources
      (redirectLoop srv.redirects req (stripTrailingSlash req.resource) 0
        MAX_REDIRECTS).resource = none := by
    have hresf : (redirectLoop srv.redirects req (stripTrailingSlash req.resource) 0
        MAX_REDIRECTS).resource =
        rtIter srv.redirects m (stripTrailingSlash req.resource) := by rw [hst]
    rw [hresf, ← hrmax]
    exact hfind
  rw [heq, dispatchResolved_notFound conn hauth hfindL]
  refine ⟨rfl, rfl, rfl, rfl, ?_⟩
  intro h0
  have hbase := redirectLoop_none req 0 MAX_REDIRECTS h0
  show (redirectLoop srv.redirects req (stripTrailingSlash req.resource) 0
    MAX_REDIRECTS).request.resource = req.resource
  rw [hbase]

theorem C10_witness :
    findRequestHandler srvPlain.resources
        (rtIter srvPlain.redirects MAX_REDIRECTS (stripTrailingSlash reqSlashTrail.resource))
      = none ∧
    (handleRequest srvPlain reqSlashTrail connOpen ecNone).result = .notFound ∧
    (notFoundResponse (handleRequest srvPlain reqSlashTrail connOpen ecNone).request).body =
      NOT_FOUND_HTML_START ++ ("/a/".toList) ++ NOT_FOUND_HTML_FINISH := by
  have hmain := @C10_not_found_embeds_current_resource srvPlain reqSlashTrail ecNone connOpen
    rfl rfl (by decide) (by decide) (by decide)
  refine ⟨by decide, hmain.1, ?_⟩
  rw [hmain.2.2.1, hmain.2.2.2.2 (by decide)]
  rfl

/-- C5: the handler-invocation fault envelope: `std::bad_alloc` propagates
out unhandled (no responder), while any other `std::exception` is caught and
the server-error responder emits a 500 whose body carries the exception's
diagnostic text. -/
theorem C5_handler_fault_envelope {srv : Server} {req : Request} {ec : ErrorCode} {h : Nat}
    (conn : Conn) (hec : ec.value = 0) (hv : req.valid = true)
    (hauth : srv.auth ≠ some false)
    (hres : mapFind? (rtIter srv.redirects MAX_REDIRECTS (stripTrailingSlash req.resource))
      srv.redirects = none)
    (hfind : findRequestHandler srv.resources
      (rtIter srv.redirects MAX_REDIRECTS (stripTrailingSlash req.resource)) = some h) :
    (srv.behavior h = .throwBadAlloc →
      (handleRequest srv req conn ec).result = .fatalBadAlloc ∧
      (handleRequest srv req conn ec).response = none) ∧
    (∀ msg, srv.behavior h = .throwStd msg →
      (handleRequest srv req conn ec).result = .handlerError (diagnosticInformation msg) ∧
      (handleRequest srv req conn ec).response =
        some (serverErrorResponse (diagnosticInformation msg)) ∧
      (serverErrorResponse (diagnosticInformation msg)).statusCode = 500 ∧
      diagnosticInformation msg <:+: (serverErrorResponse (diagnosticInformation msg)).body) := by
  obtain ⟨m, hm, hst, hstop⟩ := redirectLoop_resolves req 0 (le_refl MAX_REDIRECTS) hres
  have hrmax : rtIter srv.redirects MAX_REDIRECTS (stripTrailingSlash req.resource) =
      rtIter srv.redirects m (stripTrailingSlash req.resource) := by
    rw [show MAX_REDIRECTS = m + (MAX_REDIRECTS - m) from by omega, rtIter_add,
      rtIter_stall hstop]
  have hex : (redirectLoop srv.redirects req (stripTrailingSlash req.resource) 0
      MAX_REDIRECTS).exceeded = false := by rw [hst]
  have heq : handleRequest srv req conn ec =
      dispatchResolved srv
        (redirectLoop srv.redirects req (stripTrailingSlash req.resource) 0 MAX_REDIRECTS)
        conn := by
    rw [handleRequest_valid_eq srv conn hec hv, dispatchValid_eq, hex,
      if_neg Bool.false_ne_true]
  have hfindL : findRequestHandler srv.resources
      (redirectLoop srv.redirects req (stripTrailingSlash req.resource) 0
        MAX_REDIRECTS).resource = some h := by
    have hresf : (redirectLoop srv.redirects req (stripTrailingSlash req.resource) 0
        MAX_REDIRECTS).resource =
        rtIter srv.redirects m (stripTrailingSlash req.resource) := by rw [hst]
    rw [hresf, ← hrmax]
    exact hfind
  constructor
  · intro hbeh
    rw [heq, dispatchResolved_badAlloc conn hauth hfindL hbeh]
    exact ⟨rfl, rfl⟩
  · intro msg hbeh
    rw [heq, dispatchResolved_throwStd conn hauth hfindL hbeh]
    exact ⟨rfl, rfl, rfl, SERVER_ERROR_HTML_START, SERVER_ERROR_HTML_FINISH, rfl⟩

/-- The server of spec scenario §8.6: a handler at `/boom` that raises a
recoverable failure with message "kaboom". -/
def srvBoom : Server :=
  { resources := [("/boom".toList, 0)], redirects := [], auth := none,
    behavior := fun _ => .throwStd ("kaboom".toList) }

def reqBoom : Request :=
  { resource := "/boom".toList, originalResource := "/boom".toList, valid := true }

theorem C5_witness :
    srvBoom.behavior 0 = .throwStd ("kaboom".toList) ∧
    (handleRequest srvBoom reqBoom connOpen ecNone).result =
      .handlerError (diagnosticInformation ("kaboom".toList)) ∧
    (handleRequest srvBoom reqBoom connOpen ecNone).response =
      some (serverErrorResponse (diagnosticInformation ("kaboom".toList))) ∧
    ("kaboom".toList) <:+:
      (serverErrorResponse (diagnosticInformation ("kaboom".toList))).body := by
  have hmain := @C5_handler_fault_envelope srvBoom reqBoom ecNone 0 connOpen rfl rfl
    (by decide) (by decide) (by decide)
  have hstd := hmain.2 ("kaboom".toList) rfl
  exact ⟨rfl, hstd.1, hstd.2.1, hstd.2.2.2⟩

end Pion
